import Mathlib

/-!
Shallow embedding of the viewtext field-resolution and formatting core
(`registry_builder.py`, `formatters.py`, `engine.py`), together with
theorems settling the specification claims against it.

Modelling conventions:
* Python values are the plain-data universe `PyVal`; floats are the
  exact fractions `PyFloat` (binary rounding is not exercised by any
  property below).
* Fallible Python code is embedded as `Except PyErr _`; an uncaught
  exception is an `.error`.
* `dict[str, Any]` contexts are association lists with first-match lookup
  and unique keys.
-/

/-- Python exception classes that the embedded code raises or catches. -/
inductive PyErr where
  | attributeError
  | typeError
  | keyError
  | valueError
  | zeroDivisionError
  | indexError
  deriving DecidableEq, Repr

/-- Python floats, modelled as exact fractions (numerator over a
positive denominator, not necessarily reduced — keeping representatives
unnormalized makes every operation structurally computable). All
arithmetic below is exact; binary-float rounding is not exercised by any
property in this development. -/
structure PyFloat where
  num : Int
  den : Int
  deriving DecidableEq, Repr

namespace PyFloat

/-- Embed an integer. -/
def ofInt (n : Int) : PyFloat := ⟨n, 1⟩

instance (n : Nat) : OfNat PyFloat n := ⟨ofInt n⟩

/-- Restore a positive denominator (after a division). -/
def sgnNorm (q : PyFloat) : PyFloat :=
  if q.den < 0 then ⟨-q.num, -q.den⟩ else q

instance : Add PyFloat :=
  ⟨fun a b => ⟨a.num * b.den + b.num * a.den, a.den * b.den⟩⟩

instance : Sub PyFloat :=
  ⟨fun a b => ⟨a.num * b.den - b.num * a.den, a.den * b.den⟩⟩

instance : Mul PyFloat := ⟨fun a b => ⟨a.num * b.num, a.den * b.den⟩⟩

instance : Div PyFloat :=
  ⟨fun a b => sgnNorm ⟨a.num * b.den, a.den * b.num⟩⟩

instance : Neg PyFloat := ⟨fun q => ⟨-q.num, q.den⟩⟩

/-- Value-level zero test. -/
def isZero (q : PyFloat) : Bool := q.num = 0

/-- Value-level strict order (denominators positive). -/
def blt (a b : PyFloat) : Bool := a.num * b.den < b.num * a.den

/-- `q < 0` (denominator positive). -/
def isNeg (q : PyFloat) : Bool := q.num < 0

/-- Mathematical floor. -/
def floor (q : PyFloat) : Int := q.num.fdiv q.den

/-- Mathematical ceiling. -/
def ceil (q : PyFloat) : Int := -((-q.num).fdiv q.den)

/-- `10 ^ d` as a float. -/
def pow10 (d : Nat) : PyFloat := ⟨(10 : Int) ^ d, 1⟩

/-- Whether the value is an integer. -/
def isInt (q : PyFloat) : Bool := q.num.emod q.den = 0

/-- Python `min` of two floats. -/
def pymin (a b : PyFloat) : PyFloat := if blt b a then b else a

/-- Python `max` of two floats. -/
def pymax (a b : PyFloat) : PyFloat := if blt a b then b else a

end PyFloat

/-- Python values of the plain-data universe the core manipulates.
`bmethod` is a bound builtin method, as produced by `getattr` on a value
whose type has a method of that name — chain walks hold such values
between the `getattr` and the call. -/
inductive PyVal where
  | none
  | bool (b : Bool)
  | int (n : Int)
  | float (q : PyFloat)
  | str (s : String)
  | list (xs : List PyVal)
  | dict (xs : List (String × PyVal))
  | bmethod (recv : PyVal) (name : String)
  deriving Repr

/-- A Python `dict[str, Any]` context: association list, unique keys. -/
abbrev Ctx := List (String × PyVal)

/-- `dict.get` / `in` lookup: first matching key. -/
def ctxGet (ctx : Ctx) (k : String) : Option PyVal :=
  match ctx with
  | [] => Option.none
  | (k₀, v) :: rest => if k₀ = k then Option.some v else ctxGet rest k

/-- `dict[k] = v`: replace the first binding of `k` or append a new one. -/
def ctxSet (ctx : Ctx) (k : String) (v : PyVal) : Ctx :=
  match ctx with
  | [] => [(k, v)]
  | (k₀, v₀) :: rest =>
      if k₀ = k then (k₀, v) :: rest else (k₀, v₀) :: ctxSet rest k v

/-- Python truthiness (`bool(v)`). -/
def truthy : PyVal → Bool
  | .none => false
  | .bool b => b
  | .int n => n ≠ 0
  | .float q => ¬ q.isZero
  | .str s => s ≠ ""
  | .list xs => ¬ xs.isEmpty
  | .dict xs => ¬ xs.isEmpty
  | .bmethod _ _ => true

/-- Truthiness of an optional string parameter (`None` and `""` are falsy). -/
def truthyStr : Option String → Bool
  | Option.none => false
  | Option.some s => s ≠ ""

/-- Digits of a natural number, most significant first. -/
def natDigits (n : Nat) : String := toString n

/-- Left-pad a string with zeros to the given length. -/
def padZeros (s : String) (n : Nat) : String :=
  String.mk (List.replicate (n - s.length) '0') ++ s

/-- Split a reversed digit list into groups of three (used for the `,`
format-spec digit grouping). -/
def chunk3 : List Char → List (List Char)
  | [] => []
  | [a] => [[a]]
  | [a, b] => [[a, b]]
  | [a, b, c] => [[a, b, c]]
  | a :: b :: c :: rest => [a, b, c] :: chunk3 rest

/-- Join chunks with a comma between them. -/
def joinComma : List (List Char) → List Char
  | [] => []
  | [g] => g
  | g :: gs => g ++ ',' :: joinComma gs

/-- Insert `,` thousands grouping into a digit string, as the Python
format spec `,` option does. -/
def group3 (s : String) : String :=
  String.mk (joinComma (chunk3 s.data.reverse)).reverse

/-- Round to the nearest integer, ties to even (Python float formatting
and `round`). -/
def roundHalfEven (q : PyFloat) : Int :=
  let f := q.floor
  let r := q - PyFloat.ofInt f
  if PyFloat.blt r ⟨1, 2⟩ then f
  else if PyFloat.blt ⟨1, 2⟩ r then f + 1
  else if f % 2 = 0 then f else f + 1

/-- Fixed-point rendering of a rational: the Python f-string
`\x7bv:,.Df\x7d` (with `grouped`) or `\x7bv:.Df\x7d` (without). -/
def formatFixedCore (q : PyFloat) (d : Nat) (grouped : Bool) : String :=
  let neg := q.isNeg
  let m := (roundHalfEven ((if q.isNeg then -q else q) * PyFloat.pow10 d)).toNat
  let ip := m / 10 ^ d
  let fp := m % 10 ^ d
  let ipStr := if grouped then group3 (natDigits ip) else natDigits ip
  let core := if d = 0 then ipStr else ipStr ++ "." ++ padZeros (natDigits fp) d
  (if neg then "-" else "") ++ core

/-- `repr` of a float value (`str(f)`): exact decimal expansion when one
exists; values with no finite decimal expansion (not reachable from the
embedded code paths) fall back to a fraction rendering. -/
def floatStr (q : PyFloat) : String :=
  if q.isInt then toString q.floor ++ ".0"
  else
    match (List.range 25).find? (fun k => (q * PyFloat.pow10 k).isInt) with
    | Option.some k => formatFixedCore q k false
    | Option.none => toString q.num ++ "/" ++ toString q.den

/-- `str(v)` for scalar values. -/
def pyScalarStr : PyVal → String
  | .none => "None"
  | .bool true => "True"
  | .bool false => "False"
  | .int n => toString n
  | .float q => floatStr q
  | .str s => s
  | .list _ => "[...]"
  | .dict _ => "\x7b...\x7d"
  | .bmethod _ _ => "<built-in method>"

/-- `str(v)`. Container `repr` is abstracted (no embedded code path under
a claim stringifies a list or dict). -/
def pyStr (v : PyVal) : String := pyScalarStr v

/-- Python `str.split(sep)` for a one-character separator: splitting the
empty string yields `[""]`, and separators at the ends yield empty
pieces, exactly as in Python. -/
def splitCharsOn (sep : Char) (cs : List Char) : List (List Char) :=
  match cs with
  | [] => [[]]
  | c :: rest =>
      if c = sep then [] :: splitCharsOn sep rest
      else
        match splitCharsOn sep rest with
        | g :: gs => (c :: g) :: gs
        | [] => [[c]]

/-- Python whitespace strip (`str.strip()`). -/
def pyStrip (s : String) : String :=
  String.mk ((s.data.dropWhile Char.isWhitespace).reverse.dropWhile
    Char.isWhitespace).reverse

/-- `str.upper()` (ASCII model). -/
def strUpper (s : String) : String := String.mk (s.data.map Char.toUpper)

/-- `str.lower()` (ASCII model). -/
def strLower (s : String) : String := String.mk (s.data.map Char.toLower)

/-- `str.title()`: first letter of each alphabetic run uppercased, the
rest lowercased (ASCII model). -/
def strTitle (s : String) : String :=
  let step := fun (acc : List Char × Bool) (c : Char) =>
    if c.isAlpha then
      ((if acc.2 then c.toLower else c.toUpper) :: acc.1, true)
    else (c :: acc.1, false)
  String.mk ((s.data.foldl step ([], false)).1.reverse)

/-- Value of a digit list, most significant first. -/
def digitsVal (cs : List Char) : Nat :=
  cs.foldl (fun acc c => acc * 10 + (c.toNat - '0'.toNat)) 0

/-- `int(s)` on a string: optional sign then decimal digits, surrounding
whitespace ignored; anything else raises `ValueError`. -/
def pyIntOfString (s : String) : Except PyErr Int :=
  let cs := (pyStrip s).data
  let (sign, body) :=
    match cs with
    | '-' :: rest => (true, rest)
    | '+' :: rest => (false, rest)
    | rest => (false, rest)
  if body ≠ [] ∧ body.all Char.isDigit then
    .ok (if sign then -(digitsVal body : Int) else (digitsVal body : Int))
  else .error .valueError

/-- `float(s)` on a string: optional sign, decimal digits with an optional
fractional part (exponent forms are not modelled; no embedded path under a
claim parses one); anything else raises `ValueError`. -/
def pyFloatOfString (s : String) : Except PyErr PyFloat :=
  let cs := (pyStrip s).data
  let (sign, body) :=
    match cs with
    | '-' :: rest => (true, rest)
    | '+' :: rest => (false, rest)
    | rest => (false, rest)
  let ipart := body.takeWhile Char.isDigit
  let rest := body.drop ipart.length
  let ok : PyFloat → Except PyErr PyFloat := fun q =>
    .ok (if sign then -q else q)
  match rest with
  | [] =>
      if ipart ≠ [] then ok (PyFloat.ofInt (digitsVal ipart))
      else .error .valueError
  | '.' :: fpart =>
      if (ipart ≠ [] ∨ fpart ≠ []) ∧ fpart.all Char.isDigit then
        ok (PyFloat.ofInt (digitsVal ipart) +
          (⟨(digitsVal fpart : Int), (10 : Int) ^ fpart.length⟩ : PyFloat))
      else .error .valueError
  | _ => .error .valueError

/-- `float(v)`: numeric coercion. -/
def pyToFloat : PyVal → Except PyErr PyFloat
  | .none => .error .typeError
  | .bool b => .ok (if b then 1 else 0)
  | .int n => .ok (PyFloat.ofInt n)
  | .float q => .ok q
  | .str s => pyFloatOfString s
  | .list _ => .error .typeError
  | .dict _ => .error .typeError
  | .bmethod _ _ => .error .typeError

/-- `int(v)`: integer coercion (floats truncate toward zero). -/
def pyToInt : PyVal → Except PyErr Int
  | .none => .error .typeError
  | .bool b => .ok (if b then 1 else 0)
  | .int n => .ok n
  | .float q => .ok (if q.isNeg then q.ceil else q.floor)
  | .str s => pyIntOfString s
  | .list _ => .error .typeError
  | .dict _ => .error .typeError
  | .bmethod _ _ => .error .typeError

/-! ### MethodCallParser (registry_builder.py, lines 16 to 150) -/

/-- A parsed chain operation: the tuples `(kind, name, args)` produced by
`MethodCallParser.parse`, with kind `key`, `attr` or `method`. -/
inductive ChainOp where
  | key (name : String)
  | attr (name : String)
  | method (name : String) (args : List PyVal)
  deriving Repr

/-- Python regex `\w` (ASCII model: letters, digits, underscore). -/
def isWordChar (c : Char) : Bool := c.isAlpha || c.isDigit || c = '_'

/-- `arg[1:-1]`. -/
def sliceInner (cs : List Char) : List Char := (cs.drop 1).dropLast

/-- `arg.startswith(q) and arg.endswith(q)` for a one-character quote. -/
def isQuoted (cs : List Char) (q : Char) : Bool :=
  match cs with
  | [] => false
  | c :: _ => c = q && cs.getLast? = Option.some q

/-- One argument literal of `MethodCallParser._parse_args`: strip, then
quoted string / numeric / boolean / none / raw-string classification.
`int`/`float` on a token that passes the digits test but is still
malformed (for example `1-2`) raises `ValueError`. -/
def parseOneArg (rawArg : String) : Except PyErr PyVal :=
  let arg := pyStrip rawArg
  let cs := arg.data
  if isQuoted cs '\x27' || isQuoted cs '"' then
    .ok (.str (String.mk (sliceInner cs)))
  else
    let residue := cs.filter (fun c => ¬ (c = '-' ∨ c = '.'))
    if residue ≠ [] ∧ residue.all Char.isDigit then
      if cs.contains '.' then (pyFloatOfString arg).map PyVal.float
      else (pyIntOfString arg).map PyVal.int
    else if strLower arg = "true" then .ok (.bool true)
    else if strLower arg = "false" then .ok (.bool false)
    else if strLower arg = "none" then .ok .none
    else .ok (.str arg)

/-- `MethodCallParser._parse_args`: empty-after-strip gives `[]`, else a
plain split on `,` with each piece classified. -/
def parseArgsPy (argsStr : String) : Except PyErr (List PyVal) :=
  if pyStrip argsStr = "" then .ok []
  else ((splitCharsOn ',' argsStr.data).map String.mk).mapM parseOneArg

/-- Tail admissibility in `^(\w+)\((.*?)\)(\.(.+))?$`: after the matched
`)` the rest must be empty or `.` followed by a nonempty newline-free
remainder. -/
def methodTailOk (u : List Char) : Bool :=
  match u with
  | [] => true
  | '.' :: v => ¬ v.isEmpty && ¬ v.contains '\n'
  | _ => false

/-- The lazy `(.*?)\)` search: the shortest newline-free argument prefix
whose closing `)` leaves an admissible tail. Returns the argument text
and the text after the `)`. -/
def lazyArgsSplit : List Char → Option (List Char × List Char)
  | [] => Option.none
  | ')' :: u =>
      if methodTailOk u then Option.some ([], u)
      else (lazyArgsSplit u).map (fun p => (')' :: p.1, p.2))
  | '\n' :: _ => Option.none
  | c :: u => (lazyArgsSplit u).map (fun p => (c :: p.1, p.2))

/-- `re.match(r"^(\w+)\((.*?)\)(\.(.+))?$", remaining)`: returns the
method name, the raw argument text, and the next `remaining` (group 4,
or empty). -/
def methodMatch (r : List Char) : Option (String × String × List Char) :=
  let w := r.takeWhile isWordChar
  if w.isEmpty then Option.none
  else
    match r.drop w.length with
    | '(' :: t =>
        (lazyArgsSplit t).map (fun p =>
          (String.mk w, String.mk p.1,
            match p.2 with
            | '.' :: v => v
            | _ => []))
    | _ => Option.none

/-- `re.match(r"^(\w+)(\.(.+))?$", remaining)`: returns the attribute
name and the next `remaining` (group 3, or empty). -/
def attrMatch (r : List Char) : Option (String × List Char) :=
  let w := r.takeWhile isWordChar
  if w.isEmpty then Option.none
  else
    match r.drop w.length with
    | [] => Option.some (String.mk w, [])
    | '.' :: v =>
        if ¬ v.isEmpty ∧ ¬ v.contains '\n' then Option.some (String.mk w, v)
        else Option.none
    | _ => Option.none

namespace MethodCallParser

/-- The non-first iterations of the `while remaining` loop in
`MethodCallParser.parse`, fuel-indexed: every iteration strictly shortens
`remaining`, so fuel `remaining.length` makes the zero-fuel branch
unreachable. An unmatched segment breaks out of the loop. -/
def parseRest (fuel : Nat) (remaining : List Char) : Except PyErr (List ChainOp) :=
  match fuel, remaining with
  | _, [] => .ok []
  | 0, _ => .ok []
  | fuel + 1, r =>
      match methodMatch r with
      | Option.some (name, argsStr, rest) => do
          let args ← parseArgsPy argsStr
          let ops ← parseRest fuel rest
          return ChainOp.method name args :: ops
      | Option.none =>
          match attrMatch r with
          | Option.some (name, rest) => do
              let ops ← parseRest fuel rest
              return ChainOp.attr name :: ops
          | Option.none => .ok []

/-- `MethodCallParser.parse`. The first segment becomes a `key`
operation; argument-literal errors propagate (the call to `parse` sits
outside the resolver's `try`). -/
def parse (context_key : String) : Except PyErr (List ChainOp) :=
  let cs := context_key.data
  match cs with
  | [] => .ok []
  | _ =>
      if cs.contains '.' then
        let key := cs.takeWhile (fun c => c ≠ '.')
        let rest := cs.drop (key.length + 1)
        do
          let ops ← parseRest rest.length rest
          return ChainOp.key (String.mk key) :: ops
      else .ok [ChainOp.key (String.mk cs)]

end MethodCallParser

/-! ### Input resolver (registry_builder.py, RegistryBuilder) -/

/-- `RegistryBuilder._apply_transform`. -/
def applyTransform (value : PyVal) (transform : String) : Except PyErr PyVal :=
  if transform = "upper" then .ok (.str (strUpper (pyStr value)))
  else if transform = "lower" then .ok (.str (strLower (pyStr value)))
  else if transform = "title" then .ok (.str (strTitle (pyStr value)))
  else if transform = "strip" then .ok (.str (pyStrip (pyStr value)))
  else if transform = "int" then (pyToInt value).map PyVal.int
  else if transform = "float" then (pyToFloat value).map PyVal.float
  else if transform = "str" then .ok (.str (pyStr value))
  else if transform = "bool" then .ok (.bool (truthy value))
  else .ok value

/-- First index at which `pat` occurs in `hay` (`str.index` search; the
empty pattern is found at 0, as in Python). -/
def strFindIndex (pat : List Char) : List Char → Option Nat
  | [] => if pat.isPrefixOf ([] : List Char) then Option.some 0 else Option.none
  | c :: rest =>
      if pat.isPrefixOf (c :: rest) then Option.some 0
      else (strFindIndex pat rest).map (· + 1)

/-- `getattr` on the modelled plain-data universe. On builtin values an
existing method name yields a bound method object and any other name
raises `AttributeError`; the modelled method table is `str.upper`,
`str.lower`, `str.strip`, `str.index` and `dict.get` — a representative
faithful subset (in particular `str.index` can raise `ValueError`, a
class outside the plain getter's catch tuple). Other builtin attributes
are abstracted to `AttributeError`. -/
def pyGetAttr (v : PyVal) (name : String) : Except PyErr PyVal :=
  match v with
  | .str _ =>
      if name = "upper" ∨ name = "lower" ∨ name = "strip" ∨ name = "index"
      then .ok (.bmethod v name)
      else .error .attributeError
  | .dict _ =>
      if name = "get" then .ok (.bmethod v name)
      else .error .attributeError
  | _ => .error .attributeError

/-- Calling a bound builtin method with literal arguments, with Python's
exception classes: wrong arity or a wrongly-typed argument raises
`TypeError`; `str.index` raises `ValueError` when the substring is
absent (start/end arguments are not modelled); `dict.get` returns the
value, the optional default, or `None` (an unhashable key raises
`TypeError`). Calling a non-method value raises `TypeError`. -/
def pyCallMethod (recv : PyVal) (name : String) (args : List PyVal) :
    Except PyErr PyVal :=
  match recv, name with
  | .str s, "upper" =>
      match args with
      | [] => .ok (.str (strUpper s))
      | _ => .error .typeError
  | .str s, "lower" =>
      match args with
      | [] => .ok (.str (strLower s))
      | _ => .error .typeError
  | .str s, "strip" =>
      match args with
      | [] => .ok (.str (pyStrip s))
      | _ => .error .typeError
  | .str s, "index" =>
      match args with
      | [.str needle] =>
          match strFindIndex needle.data s.data with
          | Option.some i => .ok (.int i)
          | Option.none => .error .valueError
      | [_] => .error .typeError
      | _ => .error .typeError
  | .dict d, "get" =>
      match args with
      | [.str k] => .ok ((ctxGet d k).getD .none)
      | [.list _] => .error .typeError
      | [.dict _] => .error .typeError
      | [_] => .ok .none
      | [.str k, dflt] => .ok ((ctxGet d k).getD dflt)
      | [.list _, _] => .error .typeError
      | [.dict _, _] => .error .typeError
      | [_, dflt] => .ok dflt
      | _ => .error .typeError
  | _, _ => .error .typeError

/-- `method(*args)` on whatever `getattr` returned. -/
def pyCall (f : PyVal) (args : List PyVal) : Except PyErr PyVal :=
  match f with
  | .bmethod recv name => pyCallMethod recv name args
  | _ => .error .typeError

/-- Control-flow outcome of the chain-replay loop inside the getter of
`RegistryBuilder._create_getter`: an early `return default` on a null
key lookup, normal completion with the final value, or a raised
exception. -/
inductive ChainOut where
  | early
  | done (v : PyVal)
  | raised (e : PyErr)

/-- The `for op_type, name, args in operations` loop of the plain getter:
`key` is `context.get(name)` with an early default on `None`; `attr` and
`method` go through `getattr`. -/
def chainLoop (context : Ctx) : List ChainOp → PyVal → ChainOut
  | [], v => .done v
  | op :: rest, v =>
      match op with
      | .key name =>
          match ctxGet context name with
          | Option.none => .early
          | Option.some PyVal.none => .early
          | Option.some v₁ => chainLoop context rest v₁
      | .attr name =>
          match pyGetAttr v name with
          | .ok v₁ => chainLoop context rest v₁
          | .error e => .raised e
      | .method name args =>
          match pyGetAttr v name with
          | .ok m =>
              match pyCall m args with
              | .ok v₁ => chainLoop context rest v₁
              | .error e => .raised e
          | .error e => .raised e

/-- The exception classes caught by the plain getter:
`except (AttributeError, TypeError, KeyError)`. -/
def getterCaught : PyErr → Bool
  | .attributeError => true
  | .typeError => true
  | .keyError => true
  | _ => false

/-- The part of the getter of `RegistryBuilder._create_getter` after
parsing: replay the chain under the catch clause above, then apply the
optional transform to a non-null result. Transform exceptions propagate
— the transform runs after the `try` block. -/
def createGetterResolved (operations : List ChainOp) (default : PyVal)
    (transform : Option String) (context : Ctx) : Except PyErr PyVal :=
  match chainLoop context operations PyVal.none with
  | .early => .ok default
  | .raised e => if getterCaught e then .ok default else .error e
  | .done v =>
      if truthyStr transform then
        match v with
        | PyVal.none => .ok v
        | _ => applyTransform v (transform.getD "")
      else .ok v

/-- The getter closure produced by `RegistryBuilder._create_getter`:
parse the context key (outside the `try`, so argument-literal errors
propagate), then resolve. -/
def createGetter (context_key : Option String) (default : PyVal)
    (transform : Option String) (context : Ctx) : Except PyErr PyVal :=
  match context_key with
  | Option.none => .ok default
  | Option.some ck =>
      match MethodCallParser.parse ck with
      | .error e => .error e
      | .ok operations => createGetterResolved operations default transform context

/-- The input-mapping record (`InputMapping` in loader.py, imported by
the builder as `FieldMapping`), restricted to the fields the registry
builder reads plus `constant` (documented as a literal short-circuit
value). A missing `default` is `None`, as in Python. -/
structure FieldMapping where
  context_key : Option String := Option.none
  constant : Option PyVal := Option.none
  default : PyVal := PyVal.none
  transform : Option String := Option.none
  operation : Option String := Option.none
  sources : Option (List String) := Option.none
  multiply : Option PyFloat := Option.none
  add : Option PyFloat := Option.none
  divide : Option PyFloat := Option.none

/-- Truthiness of an optional list parameter (`None` and `[]` are falsy). -/
def truthyList (o : Option (List String)) : Bool :=
  match o with
  | Option.none => false
  | Option.some xs => ¬ xs.isEmpty

/-- The keys of the `RegistryBuilder.OPERATIONS` dictionary. -/
def OPERATIONS : List String :=
  ["celsius_to_fahrenheit", "fahrenheit_to_celsius", "multiply", "divide",
   "add", "subtract", "average", "min", "max", "abs", "round"]

/-- Python `round(v, n)` on exact rationals: half-even at the given
decimal position. -/
def pyRound (v : PyFloat) (n : Int) : PyFloat :=
  if 0 ≤ n then
    PyFloat.ofInt (roundHalfEven (v * PyFloat.pow10 n.toNat)) / PyFloat.pow10 n.toNat
  else
    PyFloat.ofInt (roundHalfEven (v / PyFloat.pow10 (-n).toNat)) * PyFloat.pow10 (-n).toNat

/-- `int(q)` truncation toward zero on a float. -/
def ratTrunc (q : PyFloat) : Int := if q.isNeg then q.ceil else q.floor

/-- The `celsius_to_fahrenheit` lambda of `OPERATIONS` (unary; wrong
arity raises `TypeError`). -/
def opCelsiusToFahrenheit : List PyFloat → Except PyErr (Option PyFloat)
  | [v] => .ok (Option.some (v * 9 / 5 + 32))
  | _ => .error .typeError

/-- The `fahrenheit_to_celsius` lambda of `OPERATIONS`. -/
def opFahrenheitToCelsius : List PyFloat → Except PyErr (Option PyFloat)
  | [v] => .ok (Option.some ((v - 32) * 5 / 9))
  | _ => .error .typeError

/-- The `multiply` lambda of `OPERATIONS` (variadic: two or more sources
multiply the first two, one echoes it, none gives `0`). -/
def opMultiply : List PyFloat → Except PyErr (Option PyFloat)
  | v₀ :: v₁ :: _ => .ok (Option.some (v₀ * v₁))
  | [v₀] => .ok (Option.some v₀)
  | [] => .ok (Option.some 0)

/-- The `divide` lambda of `OPERATIONS` (binary; zero divisor yields
`None`). -/
def opDivide : List PyFloat → Except PyErr (Option PyFloat)
  | [a, b] => .ok (if ¬ b.isZero then Option.some (a / b) else Option.none)
  | _ => .error .typeError

/-- The `add` lambda of `OPERATIONS` (variadic sum). -/
def opAdd (values : List PyFloat) : Except PyErr (Option PyFloat) :=
  .ok (Option.some (values.foldl (· + ·) 0))

/-- The `subtract` lambda of `OPERATIONS` (binary). -/
def opSubtract : List PyFloat → Except PyErr (Option PyFloat)
  | [a, b] => .ok (Option.some (a - b))
  | _ => .error .typeError

/-- The `average` lambda of `OPERATIONS` (variadic mean; empty gives
`0`). -/
def opAverage (values : List PyFloat) : Except PyErr (Option PyFloat) :=
  .ok (Option.some (if values.isEmpty then 0
    else values.foldl (· + ·) 0 / PyFloat.ofInt values.length))

/-- The `min` lambda of `OPERATIONS` (empty gives `None`). -/
def opMin : List PyFloat → Except PyErr (Option PyFloat)
  | [] => .ok Option.none
  | v :: rest => .ok (Option.some (rest.foldl PyFloat.pymin v))

/-- The `max` lambda of `OPERATIONS` (empty gives `None`). -/
def opMax : List PyFloat → Except PyErr (Option PyFloat)
  | [] => .ok Option.none
  | v :: rest => .ok (Option.some (rest.foldl PyFloat.pymax v))

/-- The `abs` lambda of `OPERATIONS` (unary). -/
def opAbs : List PyFloat → Except PyErr (Option PyFloat)
  | [v] => .ok (Option.some (if v.isNeg then -v else v))
  | _ => .error .typeError

/-- The `round` lambda of `OPERATIONS` (unary with optional decimals,
which Python truncates with `int`). -/
def opRound : List PyFloat → Except PyErr (Option PyFloat)
  | [v] => .ok (Option.some (pyRound v 0))
  | [v, d] => .ok (Option.some (pyRound v (ratTrunc d)))
  | _ => .error .typeError

/-- `RegistryBuilder.OPERATIONS.get(name)`: the dictionary lookup from
operation name to lambda (the name list above is this dictionary's key
set). -/
def opFuncFor (operation : String) :
    Option (List PyFloat → Except PyErr (Option PyFloat)) :=
  if operation = "celsius_to_fahrenheit" then Option.some opCelsiusToFahrenheit
  else if operation = "fahrenheit_to_celsius" then Option.some opFahrenheitToCelsius
  else if operation = "multiply" then Option.some opMultiply
  else if operation = "divide" then Option.some opDivide
  else if operation = "add" then Option.some opAdd
  else if operation = "subtract" then Option.some opSubtract
  else if operation = "average" then Option.some opAverage
  else if operation = "min" then Option.some opMin
  else if operation = "max" then Option.some opMax
  else if operation = "abs" then Option.some opAbs
  else if operation = "round" then Option.some opRound
  else Option.none

/-- Application of an `OPERATIONS` lambda to the coerced source values.
Python yields a number, or `None` (`divide` by a zero divisor, `min` and
`max` of nothing); calling a fixed-arity lambda with the wrong number of
values raises `TypeError`. A name outside the dictionary cannot reach
this application (both call sites are membership-guarded). -/
def applyOperation (operation : String) (values : List PyFloat) :
    Except PyErr (Option PyFloat) :=
  match opFuncFor operation with
  | Option.some f => f values
  | Option.none => .error .keyError

/-- `RegistryBuilder._get_numeric_value`: `None` unless the context maps
the key to an `int`/`float` (a Python `bool` is an `int` subclass). The
`default` argument of the Python helper is unused. -/
def getNumericValue (context : Ctx) (key : String) : Option PyFloat :=
  match ctxGet context key with
  | Option.some (PyVal.int n) => Option.some (PyFloat.ofInt n)
  | Option.some (PyVal.float q) => Option.some q
  | Option.some (PyVal.bool b) => Option.some (if b then 1 else 0)
  | _ => Option.none

/-- `RegistryBuilder._apply_linear_transform`. -/
def applyLinearTransform (value : PyFloat)
    (multiply divide add : Option PyFloat) (default : PyVal) : PyVal :=
  let m := multiply.getD 1
  let d := divide.getD 1
  let a := add.getD 0
  if d.isZero then default else .float (value * m / d + a)

/-- `RegistryBuilder._handle_linear_transform` on the params drawn from
the mapping: source key is `sources[0] if sources else context_key`. -/
def handleLinearTransform (context : Ctx) (m : FieldMapping) : PyVal :=
  let source_key :=
    match m.sources with
    | Option.some (s :: _) => Option.some s
    | _ => m.context_key
  match source_key with
  | Option.none => m.default
  | Option.some key =>
      match getNumericValue context key with
      | Option.none => m.default
      | Option.some value =>
          applyLinearTransform value m.multiply m.divide m.add m.default

/-- `RegistryBuilder._handle_sources_operation`: coerce each source from
the context (any miss returns the default), special-case unary `round`
(decimals taken from the `multiply` slot), then apply the operation and
replace a `None` result by the default. -/
def handleSourcesOperation (context : Ctx) (operation : String)
    (m : FieldMapping) : Except PyErr PyVal :=
  let sources := (m.sources).getD []
  match sources.mapM (getNumericValue context) with
  | Option.none => .ok m.default
  | Option.some values =>
      if operation = "round" ∧ values.length = 1 then
        let decimals : Int :=
          match m.multiply with
          | Option.some q => ratTrunc q
          | Option.none => 0
        .ok (.float (pyRound (values.headD 0) decimals))
      else
        match applyOperation operation values with
        | .error e => .error e
        | .ok Option.none => .ok m.default
        | .ok (Option.some r) => .ok (.float r)

/-- `RegistryBuilder._handle_context_key_operation`: a single coerced
context value (miss returns the default), special-cased `round`, else a
unary application of the operation. -/
def handleContextKeyOperation (context : Ctx) (operation : String)
    (m : FieldMapping) : Except PyErr PyVal :=
  match m.context_key with
  | Option.none => .ok m.default
  | Option.some key =>
      match getNumericValue context key with
      | Option.none => .ok m.default
      | Option.some value =>
          if operation = "round" then
            let decimals : Int :=
              match m.multiply with
              | Option.some q => ratTrunc q
              | Option.none => 0
            .ok (.float (pyRound value decimals))
          else
            match applyOperation operation [value] with
            | .error e => .error e
            | .ok Option.none => .ok PyVal.none
            | .ok (Option.some r) => .ok (.float r)

/-- The exception classes caught by the operation getter:
`except (TypeError, ValueError, ZeroDivisionError, KeyError)`. -/
def operationGetterCaught : PyErr → Bool
  | .typeError => true
  | .valueError => true
  | .zeroDivisionError => true
  | .keyError => true
  | _ => false

/-- The `try` body of the getter closure in
`RegistryBuilder._create_operation_getter`: dispatch on
`linear_transform`, the catalog lookup, then `sources` /
`context_key`. -/
def operationGetterBody (operation : String) (m : FieldMapping)
    (context : Ctx) : Except PyErr PyVal :=
  if operation = "linear_transform" then
    .ok (handleLinearTransform context m)
  else if ¬ OPERATIONS.contains operation then .ok m.default
  else if truthyList m.sources then
    handleSourcesOperation context operation m
  else if truthyStr m.context_key then
    handleContextKeyOperation context operation m
  else .ok m.default

/-- `RegistryBuilder._create_operation_getter`: an operation outside the
catalog (and not `linear_transform`) raises `ValueError` at build time;
the returned getter runs the body above and converts any caught
exception into the default. -/
def createOperationGetter (m : FieldMapping) :
    Except PyErr (Ctx → Except PyErr PyVal) :=
  let operation := (m.operation).getD ""
  if ¬ OPERATIONS.contains operation ∧ operation ≠ "linear_transform" then
    .error .valueError
  else
    .ok (fun context =>
      match operationGetterBody operation m context with
      | .ok v => .ok v
      | .error e => if operationGetterCaught e then .ok m.default else .error e)

/-- Modelled from the spec: `BaseFieldRegistry` (src/viewtext/registry.py
is absent from the source snapshot; §3 "Field Registry": a runtime
mapping from input name to a resolver function, with register / has_field
/ get). Modelled as an association list with dict-style registration. -/
def Registry := List (String × (Ctx → Except PyErr PyVal))

/-- `BaseFieldRegistry.register` (dict assignment semantics). -/
def registryRegister (reg : Registry) (name : String)
    (getter : Ctx → Except PyErr PyVal) : Registry :=
  match reg with
  | [] => [(name, getter)]
  | (n₀, g₀) :: rest =>
      if n₀ = name then (n₀, getter) :: rest
      else (n₀, g₀) :: registryRegister rest name getter

/-- `BaseFieldRegistry.get` as a total lookup. -/
def registryGet (reg : Registry) (name : String) :
    Option (Ctx → Except PyErr PyVal) :=
  match reg with
  | [] => Option.none
  | (n₀, g₀) :: rest =>
      if n₀ = name then Option.some g₀ else registryGet rest name

/-- `BaseFieldRegistry.has_field`. -/
def registryHasField (reg : Registry) (name : String) : Bool :=
  (registryGet reg name).isSome

/-- `RegistryBuilder.build_from_config`, applied to the field mappings
the loader yields: a mapping with a truthy `operation` gets an operation
getter (build can raise `ValueError`); anything else gets a plain getter
whose context key is `mapping.context_key or field_name`. The `constant`
field is never consulted. -/
def buildFromConfig (field_mappings : List (String × FieldMapping)) :
    Except PyErr Registry :=
  field_mappings.foldlM (fun reg nm =>
    let field_name := nm.1
    let m := nm.2
    if truthyStr m.operation then
      (createOperationGetter m).map (fun g => registryRegister reg field_name g)
    else
      let context_key :=
        match m.context_key with
        | Option.some ck => if ck ≠ "" then ck else field_name
        | Option.none => field_name
      .ok (registryRegister reg field_name
        (createGetter (Option.some context_key) m.default m.transform))) []

/-- Build a registry from mappings, look a field up, and run its getter:
the end-to-end resolution path exercised by the claims. `none` when the
build itself raised or the field is unregistered. -/
def resolveViaBuilder (field_mappings : List (String × FieldMapping))
    (name : String) (context : Ctx) : Option (Except PyErr PyVal) :=
  match buildFromConfig field_mappings with
  | .error _ => Option.none
  | .ok reg => (registryGet reg name).map (fun g => g context)

/-- The `valid_operations` set hard-coded in the configuration validator
of the CLI (cli.py, `validate` command): the operation names the
repository itself documents as valid. -/
def cliValidOperations : List String :=
  ["celsius_to_fahrenheit", "fahrenheit_to_celsius", "multiply", "divide",
   "add", "subtract", "average", "min", "max", "abs", "round", "ceil",
   "floor", "modulo", "linear_transform", "concat", "split", "substring",
   "conditional", "format_number"]

/-! ### Formatters (formatters.py, FormatterRegistry) -/

/-- Keyword parameters of the built-in formatters (the `kwargs` each
formatter reads through `kwargs.get`), typed after
`FormatterConfigParams` in loader.py. The Python `prefix`/`suffix` keys
are spelled with a trailing underscore. -/
structure Kw where
  type : Option String := Option.none
  symbol : Option String := Option.none
  decimals : Option Nat := Option.none
  thousands_sep : Option String := Option.none
  decimal_sep : Option String := Option.none
  prefix_ : Option String := Option.none
  suffix_ : Option String := Option.none
  format : Option String := Option.none
  symbol_position : Option String := Option.none
  template : Option String := Option.none
  fields : Option (List String) := Option.none

/-- Dict truthiness of a parameter record (`not formatter_params`). -/
def Kw.isEmpty (k : Kw) : Bool :=
  k.type.isNone && k.symbol.isNone && k.decimals.isNone &&
  k.thousands_sep.isNone && k.decimal_sep.isNone && k.prefix_.isNone &&
  k.suffix_.isNone && k.format.isNone && k.symbol_position.isNone &&
  k.template.isNone && k.fields.isNone

/-- `FormatterRegistry._format_text`. -/
def formatText (value : PyVal) (kw : Kw) : String :=
  (kw.prefix_).getD "" ++ pyStr value ++ (kw.suffix_).getD ""

/-- `FormatterRegistry._format_text_uppercase`. -/
def formatTextUppercase (value : PyVal) (_kw : Kw) : String :=
  strUpper (pyStr value)

/-- `FormatterRegistry._format_price`: null gives `""`, a non-coercible
value gives `str(value)`, a truthy `thousands_sep` selects the f-string
`,` grouping option (always the comma character — the configured
separator string itself is never inserted, and `decimal_sep` is never
read). -/
def formatPrice (value : PyVal) (kw : Kw) : String :=
  let symbol := (kw.symbol).getD ""
  let decimals := (kw.decimals).getD 2
  let thousands_sep := (kw.thousands_sep).getD ""
  match value with
  | PyVal.none => ""
  | _ =>
      match pyToFloat value with
      | .error _ => pyStr value
      | .ok num_val =>
          let formatted := formatFixedCore num_val decimals (thousands_sep ≠ "")
          if symbol ≠ "" then
            if (kw.symbol_position).getD "prefix" = "suffix" then
              formatted ++ symbol
            else symbol ++ formatted
          else formatted

/-- `FormatterRegistry._format_number`: like `price` with default zero
decimals, no symbol, and prefix/suffix strings. -/
def formatNumber (value : PyVal) (kw : Kw) : String :=
  let pre := (kw.prefix_).getD ""
  let suf := (kw.suffix_).getD ""
  let decimals := (kw.decimals).getD 0
  let thousands_sep := (kw.thousands_sep).getD ""
  match value with
  | PyVal.none => ""
  | _ =>
      match pyToFloat value with
      | .error _ => pyStr value
      | .ok num_val =>
          pre ++ formatFixedCore num_val decimals (thousands_sep ≠ "") ++ suf

/-- `FormatterRegistry._format_datetime`, with
`datetime.fromtimestamp(ts).strftime(fmt)` abstracted as a host function
(it depends on the host clock zone); the `datetime`-instance branch is
unreachable in the plain-data universe, and a Python `bool` is an `int`.
-/
def formatDatetime (strftimeTs : PyFloat → String → String) (value : PyVal)
    (kw : Kw) : String :=
  let format_str := (kw.format).getD "%Y-%m-%d %H:%M:%S"
  match value with
  | PyVal.none => ""
  | PyVal.int n => strftimeTs (PyFloat.ofInt n) format_str
  | PyVal.float q => strftimeTs q format_str
  | PyVal.bool b => strftimeTs (if b then 1 else 0) format_str
  | PyVal.str s => s
  | v => pyStr v

/-- `FormatterRegistry._format_relative_time`: null gives `""`,
non-coercible gives `str(value)`, else integer-division bucketing with
short or long unit names. -/
def formatRelativeTime (value : PyVal) (kw : Kw) : String :=
  let format_type := (kw.format).getD "short"
  match value with
  | PyVal.none => ""
  | _ =>
      match pyToInt value with
      | .error _ => pyStr value
      | .ok seconds =>
          if seconds < 60 then
            if format_type = "short" then toString seconds ++ "s ago"
            else toString seconds ++ " seconds ago"
          else if seconds < 3600 then
            let minutes := seconds.fdiv 60
            if format_type = "short" then toString minutes ++ "m ago"
            else toString minutes ++ " minutes ago"
          else if seconds < 86400 then
            let hours := seconds.fdiv 3600
            if format_type = "short" then toString hours ++ "h ago"
            else toString hours ++ " hours ago"
          else
            let days := seconds.fdiv 86400
            if format_type = "short" then toString days ++ "d ago"
            else toString days ++ " days ago"

/-! ### Layout engine (engine.py, LayoutEngine) -/

/-- A presenter record
(`PresenterConfig.model_dump(exclude_none=True)`). -/
structure Presenter where
  input : String
  formatter : String
  formatter_params : Kw := { }

/-- The loader interface the engine consults (`LayoutLoader`):
presenters and formatter presets by name. A preset is a `Kw` whose
`type` field is the dumped `type` entry. -/
structure Loader where
  presenters : List (String × Presenter) := []
  formatterPresets : List (String × Kw) := []

/-- `LayoutLoader.get_presenter_config`. -/
def getPresenterConfig (loader : Loader) (name : String) : Option Presenter :=
  match loader.presenters.find? (fun p => p.1 = name) with
  | Option.some p => Option.some p.2
  | Option.none => Option.none

/-- `LayoutLoader.get_formatter_preset`. -/
def getFormatterPreset (loader : Loader) (name : String) : Option Kw :=
  match loader.formatterPresets.find? (fun p => p.1 = name) with
  | Option.some p => Option.some p.2
  | Option.none => Option.none

/-- One line of a lines layout (`LineConfig`-shaped dict). -/
structure LineCfg where
  index : Option Int := Option.none
  input : Option String := Option.none
  presenter : Option String := Option.none
  formatter : Option String := Option.none
  formatter_params : Kw := { }

/-- One item of a dict layout (`DictItemConfig`-shaped dict). -/
structure ItemCfg where
  key : Option String := Option.none
  input : Option String := Option.none
  presenter : Option String := Option.none
  formatter : Option String := Option.none
  formatter_params : Kw := { }

/-- A layout configuration dict (`lines` and `items` default to `[]`
through `.get`). -/
structure Layout where
  lines : List LineCfg := []
  items : List ItemCfg := []

/-- A layout engine instance: optional field registry, optional layout
loader, and the abstracted host strftime. -/
structure Engine where
  field_registry : Option Registry := Option.none
  layout_loader : Option Loader := Option.none
  strftimeTs : PyFloat → String → String := fun _ _ => ""

/-- `LayoutEngine._get_input_value`: registry getter when the field is
registered, else a raw context lookup, else `None`. A getter exception
propagates. -/
def getInputValue (eng : Engine) (input_name : String) (context : Ctx) :
    Except PyErr PyVal :=
  match eng.field_registry with
  | Option.some reg =>
      match registryGet reg input_name with
      | Option.some getter => getter context
      | Option.none =>
          match ctxGet context input_name with
          | Option.some v => .ok v
          | Option.none => .ok PyVal.none
  | Option.none =>
      match ctxGet context input_name with
      | Option.some v => .ok v
      | Option.none => .ok PyVal.none

/-- Fuel-indexed body of `replaceAll`: every step consumes at least one
character, so fuel `text.length` makes the zero-fuel branch
unreachable. -/
def replaceAllF (pat repl : List Char) : Nat → List Char → List Char
  | _, [] => []
  | 0, text => text
  | fuel + 1, c :: rest =>
      if pat.isPrefixOf (c :: rest) ∧ pat ≠ [] then
        repl ++ replaceAllF pat repl fuel ((c :: rest).drop pat.length)
      else c :: replaceAllF pat repl fuel rest

/-- Replace every occurrence of a nonempty pattern in a character list
(Python `str.replace`). -/
def replaceAll (pat repl text : List Char) : List Char :=
  replaceAllF pat repl text.length text

/-- Modelled from the spec: resolution of one template field name
(spec §4.5). A plain name resolves through the engine's input resolver
(`None`, missing, or a raised resolution error render as `""`); a dotted
name resolves its head to a mapping and indexes the remaining segments
into it, with the context itself as the synthesized
`\x7bprefix: context\x7d` wrapper when the head does not resolve to a
mapping. -/
def templateResolveField (eng : Engine) (context : Ctx) (field : String) :
    String :=
  match (splitCharsOn '.' field.data).map String.mk with
  | [] => ""
  | [single] =>
      match getInputValue eng single context with
      | .ok PyVal.none => ""
      | .ok v => pyStr v
      | .error _ => ""
  | head :: restParts =>
      let start : PyVal :=
        match getInputValue eng head context with
        | .ok (PyVal.dict d) => PyVal.dict d
        | _ => PyVal.dict context
      let final := restParts.foldl (fun acc k =>
        match acc with
        | PyVal.dict d => (ctxGet d k).getD PyVal.none
        | _ => PyVal.none) start
      match final with
      | PyVal.none => ""
      | v => pyStr v

/-- Modelled from the spec: the `template` formatter (spec §4.4/§4.5).
Its implementation and registration are absent from the source snapshot,
while the engine special-cases its dispatch and hands it the ambient
context and engine/loader back references. Every
`\x7b\x7bfield\x7d\x7d` placeholder in the template string is replaced
by the field's resolved value; the slot value itself is not consulted,
and the context is only read (the wrapper mapping is a fresh copy), so
it is returned unchanged. -/
def templateFormat (eng : Engine) (_value : PyVal) (kw : Kw)
    (context : Ctx) : String × Ctx :=
  let template := (kw.template).getD ""
  let fields := (kw.fields).getD []
  let out := fields.foldl (fun acc f =>
    replaceAll ("\x7b\x7b" ++ f ++ "\x7d\x7d").data
      (templateResolveField eng context f).data acc) template.data
  (String.mk out, context)

/-- The formatter dispatch at the end of `LayoutEngine._format_value`:
`formatter_registry.get` with the `ValueError` fallback to the `text`
formatter, and the ambient context handed to the `template` type (whose
registration the spec describes; see `templateFormat`). -/
def dispatchFormatter (eng : Engine) (value : PyVal)
    (formatter_type : String) (params : Kw) (context : Ctx) : PyVal × Ctx :=
  if formatter_type = "template" then
    let st := templateFormat eng value params context
    (.str st.1, st.2)
  else
    let out :=
      if formatter_type = "text" then formatText value params
      else if formatter_type = "text_uppercase" then
        formatTextUppercase value params
      else if formatter_type = "price" then formatPrice value params
      else if formatter_type = "number" then formatNumber value params
      else if formatter_type = "datetime" then
        formatDatetime eng.strftimeTs value params
      else if formatter_type = "relative_time" then
        formatRelativeTime value params
      else formatText value params
    (.str out, context)

/-- `LayoutEngine._format_value`: preset resolution when no inline
params are given, then the dispatch above. -/
def formatValue (eng : Engine) (value : PyVal) (formatter_name : String)
    (formatter_params : Kw) (context : Ctx) : PyVal × Ctx :=
  let tp :=
    match eng.layout_loader with
    | Option.some loader =>
        if formatter_params.isEmpty then
          match getFormatterPreset loader formatter_name with
          | Option.some preset =>
              ((preset.type).getD formatter_name,
                { preset with type := Option.none })
          | Option.none => (formatter_name, formatter_params)
        else ((formatter_params.type).getD formatter_name, formatter_params)
    | Option.none => ((formatter_params.type).getD formatter_name, formatter_params)
  dispatchFormatter eng value tp.1 tp.2 context

/-- The optional formatting step of a slot: `if formatter_name:` run
`_format_value`, else keep the resolved value (and the context). -/
def maybeFormat (eng : Engine) (value : PyVal) (formatter : Option String)
    (params : Kw) (context : Ctx) : PyVal × Ctx :=
  if truthyStr formatter then
    formatValue eng value (formatter.getD "") params context
  else (value, context)

/-- Slot-level presenter resolution shared by both render loops: with a
truthy presenter name and a loader, a found presenter supplies the
formatter and its params, and the input name only when the slot omits
it. -/
def resolveSlot (eng : Engine) (input : Option String)
    (presenter : Option String) (formatter : Option String)
    (formatter_params : Kw) : Option String × Option String × Kw :=
  match presenter, eng.layout_loader with
  | Option.some pname, Option.some loader =>
      if pname ≠ "" then
        match getPresenterConfig loader pname with
        | Option.some p =>
            (match input with
             | Option.some i => Option.some i
             | Option.none => Option.some p.input,
             Option.some p.formatter, p.formatter_params)
        | Option.none => (input, formatter, formatter_params)
      else (input, formatter, formatter_params)
  | _, _ => (input, formatter, formatter_params)

/-- `str(value) if value is not None else ""` (the slot stringification
in both render loops). -/
def slotStr : PyVal → String
  | PyVal.none => ""
  | v => pyStr v

/-- `line_str[index] = s` guarded by `index < len(line_str)`: a
non-negative in-range index assigns, a negative index wraps as in
Python (raising `IndexError` below `-len`), and an index at or past the
length was already skipped by the guard. -/
def lineSlotPlace (arr : List String) (index : Int) (s : String) :
    Except PyErr (List String) :=
  if index < (arr.length : Int) then
    if 0 ≤ index then .ok (arr.set index.toNat s)
    else if -(arr.length : Int) ≤ index then
      .ok (arr.set ((arr.length : Int) + index).toNat s)
    else .error .indexError
  else .ok arr

/-- `max((line.get("index", 0) for line in lines), default=0)`. -/
def maxIndex (lines : List LineCfg) : Int :=
  match lines with
  | [] => 0
  | l :: rest =>
      rest.foldl (fun acc l₂ => max acc ((l₂.index).getD 0)) ((l.index).getD 0)

/-- The per-line body of `LayoutEngine.build_line_str`, threading the
context through every step. -/
def buildLineLoop (eng : Engine) (lines : List LineCfg)
    (arr : List String) (context : Ctx) :
    Except PyErr (List String) × Ctx :=
  match lines with
  | [] => (.ok arr, context)
  | lc :: rest =>
      match lc.index with
      | Option.none => buildLineLoop eng rest arr context
      | Option.some index =>
          let slot := resolveSlot eng lc.input lc.presenter lc.formatter
            lc.formatter_params
          match slot.1 with
          | Option.none => buildLineLoop eng rest arr context
          | Option.some input_name =>
              match getInputValue eng input_name context with
              | .error e => (.error e, context)
              | .ok value =>
                  let vc := maybeFormat eng value slot.2.1 slot.2.2 context
                  match lineSlotPlace arr index (slotStr vc.1) with
                  | .error e => (.error e, vc.2)
                  | .ok arr₂ => buildLineLoop eng rest arr₂ vc.2

/-- `LayoutEngine.build_line_str`. -/
def buildLineStr (eng : Engine) (layout : Layout) (context : Ctx) :
    Except PyErr (List String) × Ctx :=
  let max_index := maxIndex layout.lines
  let arr := List.replicate (max_index + 1).toNat ""
  buildLineLoop eng layout.lines arr context

/-- `result[key] = s` on the accumulating output dict. -/
def strDictSet (xs : List (String × String)) (k v : String) :
    List (String × String) :=
  match xs with
  | [] => [(k, v)]
  | (k₀, v₀) :: rest =>
      if k₀ = k then (k₀, v) :: rest else (k₀, v₀) :: strDictSet rest k v

/-- The per-item body of `LayoutEngine.build_dict_str`, threading the
context through every step. -/
def buildDictLoop (eng : Engine) (items : List ItemCfg)
    (res : List (String × String)) (context : Ctx) :
    Except PyErr (List (String × String)) × Ctx :=
  match items with
  | [] => (.ok res, context)
  | ic :: rest =>
      match ic.key with
      | Option.none => buildDictLoop eng rest res context
      | Option.some key =>
          let slot := resolveSlot eng ic.input ic.presenter ic.formatter
            ic.formatter_params
          match slot.1 with
          | Option.none => buildDictLoop eng rest res context
          | Option.some input_name =>
              match getInputValue eng input_name context with
              | .error e => (.error e, context)
              | .ok value =>
                  let vc := maybeFormat eng value slot.2.1 slot.2.2 context
                  buildDictLoop eng rest
                    (strDictSet res key (slotStr vc.1)) vc.2

/-- `LayoutEngine.build_dict_str`. -/
def buildDictStr (eng : Engine) (layout : Layout) (context : Ctx) :
    Except PyErr (List (String × String)) × Ctx :=
  buildDictLoop eng layout.items [] context

/-! ### Claim theorems -/

/-- Parameters of the round-trip template formatter of claim C1. -/
def c1TemplateKw : Kw :=
  { template := Option.some "\x7b\x7ba\x7d\x7d and \x7b\x7bb\x7d\x7d",
    fields := Option.some ["a", "b"] }

/-- Claim C1: a `template` formatter with fields `["a","b"]` and template
`"\x7b\x7ba\x7d\x7d and \x7b\x7bb\x7d\x7d"`, applied through the layout
engine (`LayoutEngine._format_value`) with context `a=1, b=2` where both
resolve as plain context passthrough inputs, substitutes every
placeholder with the field's resolved value and produces exactly
`"1 and 2"`. -/
theorem c1_template_round_trip :
    (formatValue { } PyVal.none "template" c1TemplateKw
      [("a", PyVal.int 1), ("b", PyVal.int 2)]).1 = PyVal.str "1 and 2" := rfl

/-- An input mapping with only `constant` set (claim C3). -/
def c3ConstantMapping : FieldMapping := { constant := Option.some (PyVal.int 5) }

/-- Claim C3 names a code bug: `RegistryBuilder.build_from_config` never
consults `mapping.constant`, so an input whose mapping carries only
`constant = 5` resolves to the default `None` instead of the documented
constant. -/
theorem c3_constant_never_consulted :
    resolveViaBuilder [("x", c3ConstantMapping)] "x" []
        = Option.some (.ok PyVal.none) ∧
      PyVal.none ≠ PyVal.int 5 :=
  ⟨rfl, fun h => PyVal.noConfusion h⟩

/-- A `concat` input mapping (claim C4). -/
def c4Concat : FieldMapping :=
  { operation := Option.some "concat", sources := Option.some ["a", "b"] }

/-- A `split` input mapping (claim C4). -/
def c4Split : FieldMapping :=
  { operation := Option.some "split", sources := Option.some ["a"] }

/-- A `substring` input mapping (claim C4). -/
def c4Substring : FieldMapping :=
  { operation := Option.some "substring", context_key := Option.some "a" }

/-- A `conditional` input mapping (claim C4). -/
def c4Conditional : FieldMapping :=
  { operation := Option.some "conditional", context_key := Option.some "a" }

/-- A `format_number` input mapping (claim C4). -/
def c4FormatNumber : FieldMapping :=
  { operation := Option.some "format_number", context_key := Option.some "a" }

/-- Claim C4 names a code bug: the CLI validator of the repository
accepts `concat`, `split`, `substring`, `conditional` and
`format_number` as valid operations, but `RegistryBuilder.OPERATIONS`
does not contain them, and registry building raises `ValueError` for a
mapping naming any of them instead of producing a resolver. -/
theorem c4_string_operations_rejected :
    (cliValidOperations.contains "concat" = true ∧
      cliValidOperations.contains "split" = true ∧
      cliValidOperations.contains "substring" = true ∧
      cliValidOperations.contains "conditional" = true ∧
      cliValidOperations.contains "format_number" = true) ∧
    (OPERATIONS.contains "concat" = false ∧
      OPERATIONS.contains "split" = false ∧
      OPERATIONS.contains "substring" = false ∧
      OPERATIONS.contains "conditional" = false ∧
      OPERATIONS.contains "format_number" = false) ∧
    (buildFromConfig [("x", c4Concat)] = .error PyErr.valueError ∧
      buildFromConfig [("x", c4Split)] = .error PyErr.valueError ∧
      buildFromConfig [("x", c4Substring)] = .error PyErr.valueError ∧
      buildFromConfig [("x", c4Conditional)] = .error PyErr.valueError ∧
      buildFromConfig [("x", c4FormatNumber)] = .error PyErr.valueError) :=
  ⟨⟨rfl, rfl, rfl, rfl, rfl⟩, ⟨rfl, rfl, rfl, rfl, rfl⟩,
    ⟨rfl, rfl, rfl, rfl, rfl⟩⟩

/-- Claim C7: each of the four formatters `price`, `number`, `datetime`
and `relative_time`, applied to `None` with any parameters (and any host
strftime), returns the empty string. -/
theorem c7_null_values_format_empty (kw : Kw)
    (strf : PyFloat → String → String) :
    formatPrice PyVal.none kw = "" ∧
      formatNumber PyVal.none kw = "" ∧
      formatDatetime strf PyVal.none kw = "" ∧
      formatRelativeTime PyVal.none kw = "" :=
  ⟨rfl, rfl, rfl, rfl⟩

/-- Claim C2 as stated is refuted by this input: a mapping with
`transform = "int"` whose chain resolves to the string `"abc"` raises
`ValueError` to the caller, because the transform runs after the
resolver's `try` block. -/
theorem c2_counterexample :
    createGetter (Option.some "x") PyVal.none (Option.some "int")
      [("x", PyVal.str "abc")] = .error PyErr.valueError := rfl

/-- Claim C5 as stated is refuted by this input: for a mapping with none
of `constant`, `context_key`, `operation` set, the builder uses the
field's own name as context key, so with context `x = 5` the input `x`
resolves to `5`, not to the mapping's default `None`. -/
theorem c5_counterexample :
    resolveViaBuilder [("x", { })] "x" [("x", PyVal.int 5)]
        = Option.some (.ok (PyVal.int 5)) ∧
      PyVal.int 5 ≠ PyVal.none :=
  ⟨rfl, fun h => PyVal.noConfusion h⟩

/-- Price parameters with decimals 2 and thousands separator `"."`
(claim C10). -/
def c10GroupedKw : Kw :=
  { decimals := Option.some 2, thousands_sep := Option.some "." }

/-- Price parameters with decimals 2 and no thousands separator
(claim C10). -/
def c10PlainKw : Kw := { decimals := Option.some 2 }

/-- Claim C10: in `price` and `number`, any non-empty `thousands_sep`
selects the format-spec comma grouping regardless of the separator
string's content (the output is invariant under changing one non-empty
separator for another, and `thousands_sep = "."` on `1234.5` with 2
decimals still yields `"1,234.50"`); the `decimal_sep` parameter is
never applied; and an empty or absent separator produces no digit
grouping. -/
theorem c10_thousands_sep_is_always_comma
    (v : PyVal) (kw : Kw) (s₁ s₂ : String) (ds : Option String)
    (h₁ : s₁ ≠ "") (h₂ : s₂ ≠ "") :
    (formatPrice v { kw with thousands_sep := Option.some s₁ }
        = formatPrice v { kw with thousands_sep := Option.some s₂ } ∧
      formatNumber v { kw with thousands_sep := Option.some s₁ }
        = formatNumber v { kw with thousands_sep := Option.some s₂ }) ∧
    (formatPrice v { kw with decimal_sep := ds } = formatPrice v kw ∧
      formatNumber v { kw with decimal_sep := ds } = formatNumber v kw) ∧
    (truthyStr kw.thousands_sep = false →
      formatPrice v kw = formatPrice v { kw with thousands_sep := Option.none } ∧
      formatNumber v kw = formatNumber v { kw with thousands_sep := Option.none }) ∧
    formatPrice (PyVal.float ⟨2469, 2⟩) c10GroupedKw = "1,234.50" ∧
    formatPrice (PyVal.float ⟨2469, 2⟩) c10PlainKw = "1234.50" := by
  refine ⟨⟨?_, ?_⟩, ⟨?_, ?_⟩, ?_, rfl, rfl⟩
  · simp [formatPrice, h₁, h₂]
  · simp [formatNumber, h₁, h₂]
  · simp [formatPrice]
  · simp [formatNumber]
  · intro ht
    cases hts : kw.thousands_sep with
    | none => simp [formatPrice, formatNumber, hts]
    | some s =>
        rw [hts] at ht
        rw [truthyStr.eq_def] at ht
        simp at ht
        subst ht
        constructor
        · simp [formatPrice, hts]
        · simp [formatNumber, hts]

/-- Witness for claim C10 at concrete inputs: grouping output is the
same for separator `"."` and separator `","`. -/
theorem c10_thousands_sep_witness :
    formatPrice (PyVal.float ⟨2469, 2⟩)
        { c10PlainKw with thousands_sep := Option.some "." }
      = formatPrice (PyVal.float ⟨2469, 2⟩)
        { c10PlainKw with thousands_sep := Option.some "," } :=
  (c10_thousands_sep_is_always_comma (PyVal.float ⟨2469, 2⟩) c10PlainKw
    "." "," (Option.some ";") (by decide) (by decide)).1.1

/-- Claim C6: a `divide`-operation mapping whose divisor source resolves
to a numeric zero returns the mapping's default for every context, and a
`linear_transform` mapping with `divide = 0` returns its default for
every context — never an exception, infinity, or NaN. -/
theorem c6_divide_by_zero_returns_default
    (nm nm₂ s₁ s₂ : String) (d : PyVal) (ctx ctx₂ : Ctx) (q dz : PyFloat)
    (m₂ : FieldMapping)
    (hq : getNumericValue ctx s₂ = Option.some q) (hz : q.isZero = true)
    (hop₂ : m₂.operation = Option.some "linear_transform")
    (hdz : m₂.divide = Option.some dz) (hdz0 : dz.isZero = true) :
    resolveViaBuilder
        [(nm, { operation := Option.some "divide",
                sources := Option.some [s₁, s₂], default := d })] nm ctx
        = Option.some (.ok d) ∧
    resolveViaBuilder [(nm₂, m₂)] nm₂ ctx₂ = Option.some (.ok m₂.default) := by
  constructor
  · cases h₁ : getNumericValue ctx s₁ with
    | none =>
        simp [resolveViaBuilder, buildFromConfig, createOperationGetter,
          operationGetterBody, registryRegister, registryGet, truthyStr,
          truthyList, handleSourcesOperation, h₁, hq, OPERATIONS,
          Except.map, List.mapM.loop]
    | some a =>
        simp [resolveViaBuilder, buildFromConfig, createOperationGetter,
          operationGetterBody, registryRegister, registryGet, truthyStr,
          truthyList, handleSourcesOperation, applyOperation, opFuncFor,
          opDivide, h₁, hq, hz, OPERATIONS, Except.map, List.mapM.loop]
  · cases hsrc : m₂.sources with
    | none =>
        cases hck : m₂.context_key with
        | none =>
            simp [resolveViaBuilder, buildFromConfig, createOperationGetter,
              operationGetterBody, registryRegister, registryGet, truthyStr,
              hop₂, Except.map, handleLinearTransform, hsrc, hck]
        | some key =>
            cases hG : getNumericValue ctx₂ key with
            | none =>
                simp [resolveViaBuilder, buildFromConfig,
                  createOperationGetter, operationGetterBody,
                  registryRegister, registryGet, truthyStr, hop₂, Except.map,
                  handleLinearTransform, hsrc, hck, hG]
            | some a =>
                simp [resolveViaBuilder, buildFromConfig,
                  createOperationGetter, operationGetterBody,
                  registryRegister, registryGet, truthyStr, hop₂, Except.map,
                  handleLinearTransform, applyLinearTransform, hsrc, hck, hG,
                  hdz, hdz0]
    | some srcs =>
        cases srcs with
        | nil =>
            cases hck : m₂.context_key with
            | none =>
                simp [resolveViaBuilder, buildFromConfig,
                  createOperationGetter, operationGetterBody,
                  registryRegister, registryGet, truthyStr, hop₂, Except.map,
                  handleLinearTransform, hsrc, hck]
            | some key =>
                cases hG : getNumericValue ctx₂ key with
                | none =>
                    simp [resolveViaBuilder, buildFromConfig,
                      createOperationGetter, operationGetterBody,
                      registryRegister, registryGet, truthyStr, hop₂,
                      Except.map, handleLinearTransform, hsrc, hck, hG]
                | some a =>
                    simp [resolveViaBuilder, buildFromConfig,
                      createOperationGetter, operationGetterBody,
                      registryRegister, registryGet, truthyStr, hop₂,
                      Except.map, handleLinearTransform, applyLinearTransform,
                      hsrc, hck, hG, hdz, hdz0]
        | cons s0 srest =>
            cases hG : getNumericValue ctx₂ s0 with
            | none =>
                simp [resolveViaBuilder, buildFromConfig,
                  createOperationGetter, operationGetterBody,
                  registryRegister, registryGet, truthyStr, hop₂, Except.map,
                  handleLinearTransform, hsrc, hG]
            | some a =>
                simp [resolveViaBuilder, buildFromConfig,
                  createOperationGetter, operationGetterBody,
                  registryRegister, registryGet, truthyStr, hop₂, Except.map,
                  handleLinearTransform, applyLinearTransform, hsrc, hG,
                  hdz, hdz0]

/-- The divide-by-zero mapping of the C6 witness. -/
def c6DivMapping : FieldMapping :=
  { operation := Option.some "divide", sources := Option.some ["a", "b"],
    default := PyVal.str "dflt" }

/-- The zero-divisor linear transform mapping of the C6 witness. -/
def c6LinMapping : FieldMapping :=
  { operation := Option.some "linear_transform",
    context_key := Option.some "v", divide := Option.some ⟨0, 1⟩,
    default := PyVal.str "dflt" }

/-- Witness for claim C6 at concrete inputs: dividing 1 by the context
value 0 yields the default, and a linear transform with `divide = 0`
yields the default. -/
theorem c6_divide_by_zero_witness :
    resolveViaBuilder [("d", c6DivMapping)] "d"
        [("a", PyVal.int 1), ("b", PyVal.int 0)]
        = Option.some (.ok (PyVal.str "dflt")) ∧
      resolveViaBuilder [("lt", c6LinMapping)] "lt" [("v", PyVal.int 7)]
        = Option.some (.ok (PyVal.str "dflt")) :=
  c6_divide_by_zero_returns_default "d" "lt" "a" "b" (PyVal.str "dflt")
    [("a", PyVal.int 1), ("b", PyVal.int 0)] [("v", PyVal.int 7)]
    (PyFloat.ofInt 0) ⟨0, 1⟩ c6LinMapping rfl (by decide) rfl rfl (by decide)

set_option maxHeartbeats 1600000 in
/-- Every exception an `OPERATIONS` lambda raises is in the operation
getter's caught set. -/
lemma opfun_error_caught (op : String)
    (f : List PyFloat → Except PyErr (Option PyFloat)) (vs : List PyFloat)
    (e : PyErr) (hf : opFuncFor op = Option.some f) (h : f vs = .error e) :
    operationGetterCaught e = true := by
  unfold opFuncFor at hf
  split_ifs at hf <;> injection hf with hf <;> subst hf <;>
    rcases vs with _ | ⟨a, _ | ⟨b, _ | ⟨c, r⟩⟩⟩ <;>
    simp_all [opCelsiusToFahrenheit, opFahrenheitToCelsius, opMultiply,
      opDivide, opAdd, opSubtract, opAverage, opMin, opMax, opAbs, opRound,
      operationGetterCaught] <;>
    (subst h; rfl)

/-- Exceptions from applying an operation are in the caught set. -/
lemma applyOperation_error_caught (op : String) (vs : List PyFloat)
    (e : PyErr) (h : applyOperation op vs = .error e) :
    operationGetterCaught e = true := by
  unfold applyOperation at h
  cases hf : opFuncFor op with
  | none => rw [hf] at h; injection h with h; subst h; rfl
  | some f => rw [hf] at h; exact opfun_error_caught op f vs e hf h

/-- Exceptions from `_handle_sources_operation` are in the caught set. -/
lemma handleSourcesOperation_error_caught (context : Ctx) (op : String)
    (m : FieldMapping) (e : PyErr)
    (h : handleSourcesOperation context op m = .error e) :
    operationGetterCaught e = true := by
  unfold handleSourcesOperation at h
  repeat' first
    | exact Except.noConfusion h
    | (injection h with h; subst h;
       exact applyOperation_error_caught _ _ _ (by assumption))
    | split at h
    | simp only [] at h

/-- Exceptions from `_handle_context_key_operation` are in the caught
set. -/
lemma handleContextKeyOperation_error_caught (context : Ctx) (op : String)
    (m : FieldMapping) (e : PyErr)
    (h : handleContextKeyOperation context op m = .error e) :
    operationGetterCaught e = true := by
  unfold handleContextKeyOperation at h
  repeat' first
    | exact Except.noConfusion h
    | (injection h with h; subst h;
       exact applyOperation_error_caught _ _ _ (by assumption))
    | split at h
    | simp only [] at h

/-- Exceptions from the operation getter's `try` body are in its caught
set. -/
lemma operationGetterBody_error_caught (op : String) (m : FieldMapping)
    (context : Ctx) (e : PyErr)
    (h : operationGetterBody op m context = .error e) :
    operationGetterCaught e = true := by
  unfold operationGetterBody at h
  split_ifs at h <;>
    first
      | exact Except.noConfusion h
      | exact handleSourcesOperation_error_caught _ _ _ _ h
      | exact handleContextKeyOperation_error_caught _ _ _ _ h

/-- An operation getter produced by `_create_operation_getter` never
raises: its `except` clause covers every exception its body can
produce. -/
lemma operationGetter_total (m : FieldMapping)
    (g : Ctx → Except PyErr PyVal) (ctx : Ctx)
    (hg : createOperationGetter m = .ok g) : (g ctx).isOk = true := by
  simp only [createOperationGetter] at hg
  split at hg
  · exact Except.noConfusion hg
  · injection hg with hg
    subst hg
    cases hb : operationGetterBody ((m.operation).getD "") m ctx with
    | ok v => simp only [hb]; rfl
    | error e =>
        have hc := operationGetterBody_error_caught _ _ _ _ hb
        simp only [hb, hc]
        rfl

/-- An `abs`-operation mapping (C2 witness). -/
def c2AbsMapping : FieldMapping :=
  { operation := Option.some "abs", context_key := Option.some "v" }

/-- Every error of `pyIntOfString` is a `ValueError` (`int(...)` on a bad literal). -/
lemma pyIntOfString_error (s : String) (e : PyErr)
    (h : pyIntOfString s = .error e) : e = .valueError := by
  unfold pyIntOfString at h
  repeat' first
    | exact Except.noConfusion h
    | (injection h with h; exact h.symm)
    | split at h
    | simp only [] at h

/-- Every error of `pyFloatOfString` is a `ValueError` (`float(...)` on a bad literal). -/
lemma pyFloatOfString_error (s : String) (e : PyErr)
    (h : pyFloatOfString s = .error e) : e = .valueError := by
  unfold pyFloatOfString at h
  repeat' first
    | exact Except.noConfusion h
    | (injection h with h; exact h.symm)
    | split at h
    | simp only [] at h

/-- Argument-literal parsing only raises `ValueError`. -/
lemma parseOneArg_error (a : String) (e : PyErr)
    (h : parseOneArg a = .error e) : e = .valueError := by
  unfold parseOneArg Except.map at h
  repeat' first
    | exact Except.noConfusion h
    | (injection h with h; subst h;
       first
         | exact pyFloatOfString_error _ _ (by assumption)
         | exact pyIntOfString_error _ _ (by assumption))
    | split at h
    | simp only [] at h

/-- The argument-list parse only raises `ValueError`. -/
lemma parseArgsPy_error (s : String) (e : PyErr)
    (h : parseArgsPy s = .error e) : e = .valueError := by
  unfold parseArgsPy at h
  split at h
  · exact Except.noConfusion h
  · rw [List.mapM] at h
    generalize hl : (splitCharsOn ',' s.data).map String.mk = l at h
    clear hl
    generalize hacc : ([] : List PyVal) = acc at h
    clear hacc
    induction l generalizing acc with
    | nil => simp [List.mapM.loop, pure, Except.pure] at h
    | cons x xs ih =>
        rw [List.mapM.loop] at h
        cases hx : parseOneArg x with
        | error e₁ =>
            rw [hx] at h
            simp only [bind, Except.bind] at h
            injection h with h
            subst h
            exact parseOneArg_error _ _ hx
        | ok y =>
            rw [hx] at h
            simp only [bind, Except.bind] at h
            exact ih _ h

/-- The chain-segment loop only raises `ValueError` (from argument literals). -/
lemma parseRest_error (fuel : Nat) (r : List Char) (e : PyErr)
    (h : MethodCallParser.parseRest fuel r = .error e) : e = .valueError := by
  induction fuel generalizing r with
  | zero => cases r <;> simp [MethodCallParser.parseRest] at h
  | succ f ih =>
      cases r with
      | nil => simp [MethodCallParser.parseRest] at h
      | cons c cs =>
          simp only [MethodCallParser.parseRest] at h
          repeat' first
            | exact Except.noConfusion h
            | (injection h with h; subst h;
               first
                 | exact parseArgsPy_error _ _ (by assumption)
                 | exact ih _ (by assumption))
            | split at h
            | simp only [bind, Except.bind] at h
            | simp only [pure, Except.pure] at h

/-- `MethodCallParser.parse` only raises `ValueError`. -/
lemma parse_error (ck : String) (e : PyErr)
    (h : MethodCallParser.parse ck = .error e) : e = .valueError := by
  simp only [MethodCallParser.parse] at h
  repeat' first
    | exact Except.noConfusion h
    | (injection h with h; subst h; exact parseRest_error _ _ _ (by assumption))
    | split at h
    | simp only [bind, Except.bind] at h
    | simp only [pure, Except.pure] at h

/-- With no transform set, any error escaping the resolved getter lies
outside the `except (AttributeError, TypeError, KeyError)` catch set. -/
lemma createGetterResolved_noTransform_error (ops : List ChainOp) (default : PyVal)
    (ctx : Ctx) (e : PyErr)
    (h : createGetterResolved ops default Option.none ctx = .error e) :
    getterCaught e = false := by
  unfold createGetterResolved at h
  cases hc : chainLoop ctx ops PyVal.none with
  | early => rw [hc] at h; exact Except.noConfusion h
  | raised e₁ =>
      rw [hc] at h
      simp only [] at h
      by_cases hg : getterCaught e₁ = true
      · rw [if_pos hg] at h; exact Except.noConfusion h
      · rw [if_neg hg] at h
        injection h with h
        subst h
        exact Bool.eq_false_iff.mpr hg
  | done v =>
      rw [hc] at h
      simp [truthyStr] at h

/-- With no transform set, any error escaping `_create_getter`'s closure
lies outside its catch set: errors from the chain walk by the previous
lemma, and parse errors are `ValueError`. -/
lemma createGetter_noTransform_error (ck : Option String) (default : PyVal)
    (ctx : Ctx) (e : PyErr)
    (h : createGetter ck default Option.none ctx = .error e) :
    getterCaught e = false := by
  unfold createGetter at h
  cases ck with
  | none => exact Except.noConfusion h
  | some s =>
      simp only [] at h
      cases hp : MethodCallParser.parse s with
      | error e₁ =>
          rw [hp] at h
          injection h with h
          subst h
          rw [parse_error _ _ hp]
          rfl
      | ok ops =>
          rw [hp] at h
          exact createGetterResolved_noTransform_error _ _ _ _ h

/-- Claim C2 (corrected). The original claim said resolution failures
always degrade to the mapping default and resolvers never raise. The
amended claim: the plain getter catches exactly
`(AttributeError, TypeError, KeyError)` around the chain walk, so any
exception it lets escape lies outside that set; operation getters never
raise (their body catches
`(TypeError, ValueError, ZeroDivisionError, KeyError)`); and exceptions
outside the catch set do reach the caller — e.g. the `ValueError` raised
by `str.index` on a missing substring propagates through the chain walk
with no transform set, just as the `int` transform on `"abc"` does in
`c2_counterexample`. -/
theorem c2_amended_uncaught_classes_only (ck : String) (default : PyVal)
    (ctx : Ctx) (m : FieldMapping) :
    (∀ e, createGetter (Option.some ck) default Option.none ctx = .error e →
      getterCaught e = false) ∧
    (∀ g, createOperationGetter m = .ok g → ∀ c : Ctx, (g c).isOk = true) ∧
    createGetter (Option.some "x.index(\x27z\x27)") PyVal.none Option.none
      [("x", PyVal.str "abc")] = .error PyErr.valueError :=
  ⟨fun e h => createGetter_noTransform_error _ _ _ _ h,
   fun g hg c => operationGetter_total m g c hg,
   rfl⟩

/-- Witness: at the concrete escape input `x.index(\x27z\x27)` over
context `x = "abc"`, the getter raises `ValueError`, and that class is
indeed outside the getter's catch set. -/
theorem c2_amended_witness :
    getterCaught PyErr.valueError = false ∧
    createGetter (Option.some "x.index(\x27z\x27)") PyVal.none Option.none
      [("x", PyVal.str "abc")] = .error PyErr.valueError :=
  ⟨(c2_amended_uncaught_classes_only "x.index(\x27z\x27)" PyVal.none
      [("x", PyVal.str "abc")] c2AbsMapping).1 PyErr.valueError rfl,
   (c2_amended_uncaught_classes_only "x.index(\x27z\x27)" PyVal.none
      [("x", PyVal.str "abc")] c2AbsMapping).2.2⟩

/-- A dot-free nonempty context key parses to a single `key` operation
(spec edge case in §4.1). -/
lemma parse_plain (name : String) (h₁ : name ≠ "")
    (h₂ : name.data.contains '.' = false) :
    MethodCallParser.parse name = .ok [ChainOp.key name] := by
  obtain ⟨cs⟩ := name
  unfold MethodCallParser.parse
  cases cs with
  | nil => exact absurd rfl h₁
  | cons c rest =>
      simp only [String.data] at h₂
      simp at h₂
      simp [h₂]

/-- Claim C5 amended: for a mapping with none of `constant`,
`context_key`, `operation` set, the field's own name is used as the
context key (`mapping.context_key or field_name`): resolution returns
the mapping's default exactly when the context holds no non-null value
under the field's name, and otherwise returns that context value (shown
here for mappings without a transform). -/
theorem c5_amended_field_name_is_context_key (name : String) (m : FieldMapping) (ctx : Ctx)
    (hconst : m.constant = Option.none)
    (hck : m.context_key = Option.none)
    (hop : m.operation = Option.none)
    (hname : name ≠ "" ∧ name.data.contains '.' = false) :
    ((ctxGet ctx name = Option.none ∨ ctxGet ctx name = Option.some PyVal.none) →
      resolveViaBuilder [(name, m)] name ctx = Option.some (.ok m.default)) ∧
    (∀ v, ctxGet ctx name = Option.some v → v ≠ PyVal.none →
      m.transform = Option.none →
      resolveViaBuilder [(name, m)] name ctx = Option.some (.ok v)) := by
  have hres : resolveViaBuilder [(name, m)] name ctx
      = Option.some (createGetterResolved [ChainOp.key name] m.default m.transform ctx) := by
    simp [resolveViaBuilder, buildFromConfig, hop, truthyStr, hck,
      registryRegister, registryGet, createGetter,
      parse_plain name hname.1 hname.2]
  constructor
  · intro hmiss
    rw [hres]
    unfold createGetterResolved
    rcases hmiss with hmiss | hmiss <;> simp [chainLoop, hmiss]
  · intro v hv hvne htr
    rw [hres]
    unfold createGetterResolved
    cases v with
    | none => exact absurd rfl hvne
    | bool b => simp [chainLoop, hv, htr, truthyStr]
    | int n => simp [chainLoop, hv, htr, truthyStr]
    | float q => simp [chainLoop, hv, htr, truthyStr]
    | str s => simp [chainLoop, hv, htr, truthyStr]
    | list xs => simp [chainLoop, hv, htr, truthyStr]
    | dict xs => simp [chainLoop, hv, htr, truthyStr]
    | bmethod recv nm => simp [chainLoop, hv, htr, truthyStr]

/-- A mapping with only a default set (C5 witness). -/
def c5DefaultMapping : FieldMapping := { default := PyVal.int 7 }

/-- Witness for the amended claim C5 at concrete inputs: with an empty
context the resolver returns the default. -/
theorem c5_amended_witness :
    resolveViaBuilder [("x", c5DefaultMapping)] "x" []
      = Option.some (.ok (PyVal.int 7)) :=
  (c5_amended_field_name_is_context_key "x" c5DefaultMapping [] rfl rfl rfl
    ⟨by decide, by decide⟩).1 (Or.inl rfl)

/-- The template formatter only reads the context (its wrapper mapping
is a fresh copy), returning it unchanged. -/
lemma templateFormat_ctx (eng : Engine) (v : PyVal) (kw : Kw) (ctx : Ctx) :
    (templateFormat eng v kw ctx).2 = ctx := rfl

/-- Formatter dispatch returns the context unchanged. -/
lemma dispatchFormatter_ctx (eng : Engine) (v : PyVal) (ft : String)
    (params : Kw) (ctx : Ctx) :
    (dispatchFormatter eng v ft params ctx).2 = ctx := by
  unfold dispatchFormatter
  split <;> rfl

/-- `_format_value` returns the context unchanged. -/
lemma formatValue_ctx (eng : Engine) (v : PyVal) (fname : String)
    (params : Kw) (ctx : Ctx) :
    (formatValue eng v fname params ctx).2 = ctx := by
  unfold formatValue
  exact dispatchFormatter_ctx eng v _ _ ctx

/-- The optional formatting step returns the context unchanged. -/
lemma maybeFormat_ctx (eng : Engine) (v : PyVal) (f : Option String)
    (params : Kw) (ctx : Ctx) :
    (maybeFormat eng v f params ctx).2 = ctx := by
  unfold maybeFormat
  split
  · exact formatValue_ctx eng v _ _ ctx
  · rfl

/-- The line-render loop threads the caller's context through every
slot unchanged. -/
lemma buildLineLoop_ctx (eng : Engine) (lines : List LineCfg)
    (arr : List String) (ctx : Ctx) :
    (buildLineLoop eng lines arr ctx).2 = ctx := by
  induction lines generalizing arr with
  | nil => rfl
  | cons lc rest ih =>
      simp only [buildLineLoop]
      cases hidx : lc.index with
      | none => exact ih arr
      | some index =>
          simp only []
          cases hslot : (resolveSlot eng lc.input lc.presenter lc.formatter
            lc.formatter_params).1 with
          | none => exact ih arr
          | some iname =>
              cases hval : getInputValue eng iname ctx with
              | error e => simp only [hval]
              | ok value =>
                  simp only [hval]
                  cases hplace : lineSlotPlace arr index
                    (slotStr (maybeFormat eng value (resolveSlot eng lc.input
                      lc.presenter lc.formatter lc.formatter_params).2.1
                      (resolveSlot eng lc.input lc.presenter lc.formatter
                        lc.formatter_params).2.2 ctx).1) with
                  | error e => simp only [hplace, maybeFormat_ctx]
                  | ok arr₂ =>
                      simp only [hplace, maybeFormat_ctx]
                      exact ih arr₂

/-- The dict-render loop threads the caller's context through every
slot unchanged. -/
lemma buildDictLoop_ctx (eng : Engine) (items : List ItemCfg)
    (res : List (String × String)) (ctx : Ctx) :
    (buildDictLoop eng items res ctx).2 = ctx := by
  induction items generalizing res with
  | nil => rfl
  | cons ic rest ih =>
      simp only [buildDictLoop]
      cases hkey : ic.key with
      | none => exact ih res
      | some key =>
          simp only []
          cases hslot : (resolveSlot eng ic.input ic.presenter ic.formatter
            ic.formatter_params).1 with
          | none => exact ih res
          | some iname =>
              cases hval : getInputValue eng iname ctx with
              | error e => simp only [hval]
              | ok value =>
                  simp only [hval, maybeFormat_ctx]
                  exact ih _

/-- Claim C9: rendering a layout (`build_line_str` or `build_dict_str`)
never mutates the caller-supplied context: for every engine (registry
and loader included), layout configuration and context, the context that
comes out of the state-threaded render is the one that went in. -/
theorem c9_render_never_mutates_context (eng : Engine) (layout : Layout) (ctx : Ctx) :
    (buildLineStr eng layout ctx).2 = ctx ∧
      (buildDictStr eng layout ctx).2 = ctx :=
  ⟨buildLineLoop_ctx eng layout.lines _ ctx,
   buildDictLoop_ctx eng layout.items [] ctx⟩

/-- A chain string of segments joined by dots (`"a.b.c"`). -/
def dotted : List String → String
  | [] => ""
  | [s] => s
  | s :: rest => s ++ "." ++ dotted rest

/-- The characters the non-first segments contribute to a dotted chain:
one dot-prefixed block per segment. -/
def dotTailChars : List (List Char) → List Char
  | [] => []
  | x :: xs => '.' :: (x ++ dotTailChars xs)

/-- `takeWhile` stops exactly at the first failing character. -/
lemma takeWhile_all_append (p : Char → Bool) (x t : List Char) (c : Char)
    (hx : x.all p = true) (hc : p c = false) :
    ((x ++ c :: t).takeWhile p) = x := by
  induction x with
  | nil => simp [List.takeWhile, hc]
  | cons a as ih =>
      simp only [List.all_cons, Bool.and_eq_true] at hx
      simp [List.takeWhile, hx.1, ih hx.2]

/-- `takeWhile` of an all-satisfying list is the list. -/
lemma takeWhile_all_self (p : Char → Bool) (x : List Char)
    (hx : x.all p = true) : x.takeWhile p = x := by
  induction x with
  | nil => rfl
  | cons a as ih =>
      simp only [List.all_cons, Bool.and_eq_true] at hx
      simp [List.takeWhile, hx.1, ih hx.2]

/-- Dropping past the separator after a prefix. -/
lemma drop_len_succ (x t : List Char) (c : Char) :
    (x ++ c :: t).drop (x.length + 1) = t := by
  induction x with
  | nil => rfl
  | cons a as ih => simpa using ih

/-- Every character of a dot-joined word-segment tail is a word
character or a dot. -/
lemma mem_append_dotTail (segs : List (List Char)) (x : List Char)
    (c : Char) (hc : c ∈ x ++ dotTailChars segs)
    (hx : x.all isWordChar = true)
    (hsegs : ∀ y ∈ segs, y.all isWordChar = true) :
    isWordChar c = true ∨ c = '.' := by
  induction segs generalizing x with
  | nil =>
      simp only [dotTailChars, List.append_nil] at hc
      exact Or.inl (List.all_eq_true.mp hx c hc)
  | cons y ys ih =>
      simp only [dotTailChars] at hc
      rcases List.mem_append.mp hc with h | h
      · exact Or.inl (List.all_eq_true.mp hx c h)
      · rcases List.mem_cons.mp h with h | h
        · exact Or.inr h
        · exact ih y h (hsegs y (by simp))
            (fun z hz => hsegs z (by simp [hz]))

/-- `contains` is false for a non-member. -/
lemma contains_eq_false_of_not_mem (cs : List Char) (c : Char)
    (h : c ∉ cs) : cs.contains c = false := by
  simpa using h

/-- A dot-joined word-segment tail holds no newline (needed for the
`.+` groups of the segment regexes). -/
lemma dotTail_no_newline (x : List Char) (segs : List (List Char))
    (hx : x.all isWordChar = true)
    (hsegs : ∀ y ∈ segs, y.all isWordChar = true) :
    (x ++ dotTailChars segs).contains '\n' = false := by
  refine contains_eq_false_of_not_mem _ _ (fun hmem => ?_)
  rcases mem_append_dotTail segs x '\n' hmem hx hsegs with h | h
  · exact absurd h (by decide)
  · exact absurd h (by decide)

/-- The method regex rejects a bare identifier (no parenthesis
follows the word prefix). -/
lemma methodMatch_word_only (x : List Char) (hx : x.all isWordChar = true)
    (hne : x ≠ []) : methodMatch x = Option.none := by
  simp only [methodMatch]
  rw [takeWhile_all_self _ _ hx]
  simp [hne, List.drop_length]

/-- The method regex rejects an identifier followed by a dot. -/
lemma methodMatch_word_dot (x t : List Char) (hx : x.all isWordChar = true)
    (hne : x ≠ []) : methodMatch (x ++ '.' :: t) = Option.none := by
  simp only [methodMatch]
  rw [takeWhile_all_append _ _ _ _ hx (by decide)]
  simp [hne, List.drop_left]

/-- The attribute regex accepts a bare identifier, consuming all of
it. -/
lemma attrMatch_word_only (x : List Char) (hx : x.all isWordChar = true)
    (hne : x ≠ []) : attrMatch x = Option.some (String.mk x, []) := by
  simp only [attrMatch]
  rw [takeWhile_all_self _ _ hx]
  simp [hne, List.drop_length]

/-- The attribute regex accepts `word.rest`, yielding the word and the
rest. -/
lemma attrMatch_word_dot (x t : List Char) (hx : x.all isWordChar = true)
    (hne : x ≠ []) (htne : t ≠ []) (hnl : t.contains '\n' = false) :
    attrMatch (x ++ '.' :: t) = Option.some (String.mk x, t) := by
  have hnl2 : '\n' ∉ t := by simpa using hnl
  simp only [attrMatch]
  rw [takeWhile_all_append _ _ _ _ hx (by decide)]
  simp [hne, htne, hnl2, List.drop_left]

/-- Cons-shaped restatement of `methodMatch_word_dot`. -/
lemma methodMatch_word_dot2 (c : Char) (cs' t : List Char)
    (hx : (c :: cs').all isWordChar = true) :
    methodMatch (c :: List.append cs' ('.' :: t)) = Option.none :=
  methodMatch_word_dot (c :: cs') t hx (by simp)

/-- Cons-shaped restatement of `attrMatch_word_dot`. -/
lemma attrMatch_word_dot2 (c : Char) (cs' t : List Char)
    (hx : (c :: cs').all isWordChar = true) (htne : t ≠ [])
    (hnl : t.contains '\n' = false) :
    attrMatch (c :: List.append cs' ('.' :: t))
      = Option.some (String.mk (c :: cs'), t) :=
  attrMatch_word_dot (c :: cs') t hx (by simp) htne hnl

/-- The parse loop turns every remaining dot-joined identifier segment
into one `attr` operation, in order. -/
lemma parseRest_attrs (rs : List String) (r : String) (fuel : Nat)
    (hfuel : (r.data ++ dotTailChars (rs.map String.data)).length ≤ fuel)
    (hall : ∀ t ∈ r :: rs, t ≠ "" ∧ t.data.all isWordChar = true) :
    MethodCallParser.parseRest fuel
        (r.data ++ dotTailChars (rs.map String.data))
      = .ok ((r :: rs).map (fun s => ChainOp.attr s)) := by
  induction rs generalizing fuel r with
  | nil =>
      obtain ⟨cs⟩ := r
      have hr := hall ⟨cs⟩ (by simp)
      have hcs : cs ≠ [] := by
        intro hnil
        exact hr.1 (by simp [hnil])
      simp only [List.map_nil, dotTailChars, List.append_nil] at hfuel ⊢
      rcases cs with _ | ⟨c, cs'⟩
      · exact absurd rfl hcs
      · cases fuel with
        | zero => simp at hfuel
        | succ f =>
            simp only [MethodCallParser.parseRest]
            rw [methodMatch_word_only _ hr.2 hcs,
              attrMatch_word_only _ hr.2 hcs]
            simp [MethodCallParser.parseRest]
  | cons y ys ih =>
      obtain ⟨cs⟩ := r
      have hr := hall ⟨cs⟩ (by simp)
      have hy := hall y (by simp)
      have hcs : cs ≠ [] := by
        intro hnil
        exact hr.1 (by simp [hnil])
      have hyd : y.data ≠ [] := by
        intro hnil
        apply hy.1
        obtain ⟨ycs⟩ := y
        simp at hnil
        simp [hnil]
      simp only [List.map_cons, dotTailChars] at hfuel ⊢
      have hvne : y.data ++ dotTailChars (ys.map String.data) ≠ [] := by
        intro hnil
        exact hyd (List.append_eq_nil.mp hnil).1
      have hvnl : (y.data ++ dotTailChars (ys.map String.data)).contains '\n'
          = false := by
        refine dotTail_no_newline _ _ hy.2 ?_
        intro z hz
        simp only [List.mem_map] at hz
        obtain ⟨w, hw, hwz⟩ := hz
        subst hwz
        exact (hall w (by simp [hw])).2
      rcases cs with _ | ⟨c, cs'⟩
      · exact absurd rfl hcs
      · cases fuel with
        | zero => simp at hfuel
        | succ f =>
            simp only [MethodCallParser.parseRest]
            rw [methodMatch_word_dot2 _ _ _ hr.2,
              attrMatch_word_dot2 _ _ _ hr.2 hvne hvnl]
            have hrec := ih y f (by simp at hfuel ⊢; omega)
              (fun t ht => hall t (by simp at ht ⊢; tauto))
            simp only [hrec]
            simp

/-- Characters of a dot-joined chain string. -/
lemma dotted_data (s : String) (rest : List String) :
    (dotted (s :: rest)).data
      = s.data ++ dotTailChars (rest.map String.data) := by
  induction rest generalizing s with
  | nil => simp [dotted, dotTailChars]
  | cons r rs ih =>
      show (s ++ "." ++ dotted (r :: rs)).data = _
      rw [String.data_append, String.data_append, ih r]
      simp [dotTailChars]

/-- Word characters are never the dot separator. -/
lemma word_all_ne_dot (x : List Char) (hx : x.all isWordChar = true) :
    x.all (fun c => c ≠ '.') = true := by
  rw [List.all_eq_true] at hx ⊢
  intro c hc
  have hw := hx c hc
  simp only [decide_eq_true_eq]
  intro hdot
  subst hdot
  exact absurd hw (by decide)

/-- Claim C8: for every chain string of bare identifier segments joined
by dots, with no parentheses (for example `"a.b.c"`), the chain parser
returns exactly one `key` operation for the first segment followed by
one `attr` operation per remaining segment, in order, each with empty
argument lists (`key` and `attr` operations carry no arguments by
construction). -/
theorem c8_dotted_chain_parses_to_key_attrs (s : String) (rest : List String)
    (hall : ∀ t ∈ s :: rest, t ≠ "" ∧ t.data.all isWordChar = true) :
    MethodCallParser.parse (dotted (s :: rest))
      = .ok (ChainOp.key s :: rest.map (fun t => ChainOp.attr t)) := by
  have hs := hall s (by simp)
  cases rest with
  | nil =>
      have hnodot : s.data.contains '.' = false := by
        refine contains_eq_false_of_not_mem _ _ (fun hmem => ?_)
        have := List.all_eq_true.mp hs.2 '.' hmem
        exact absurd this (by decide)
      show MethodCallParser.parse (dotted [s]) = .ok [ChainOp.key s]
      have : dotted [s] = s := rfl
      rw [this, parse_plain s hs.1 hnodot]
  | cons r rs =>
      have hdata := dotted_data s (r :: rs)
      obtain ⟨cs⟩ := s
      have hcs : cs ≠ [] := by
        intro hnil
        exact hs.1 (by simp [hnil])
      unfold MethodCallParser.parse
      rw [hdata]
      simp only [List.map_cons, dotTailChars]
      rcases cs with _ | ⟨c, cs'⟩
      · exact absurd rfl hcs
      · have hcontains :
            ((c :: cs') ++ '.' :: (r.data ++ dotTailChars (rs.map String.data))).contains '.'
              = true := by
          simp
        have hww : (c :: cs').all (fun ch => decide (ch ≠ '.')) = true :=
          word_all_ne_dot (c :: cs') hs.2
        have htake :
            (c :: (cs' ++ '.' :: (r.data ++ dotTailChars (rs.map String.data)))).takeWhile
              (fun ch => decide (ch ≠ '.')) = c :: cs' :=
          takeWhile_all_append _ (c :: cs') _ '.' hww (by decide)
        have hdrop :
            (c :: (cs' ++ '.' :: (r.data ++ dotTailChars (rs.map String.data)))).drop
              ((c :: cs').length + 1) = r.data ++ dotTailChars (rs.map String.data) :=
          drop_len_succ (c :: cs') _ '.'
        have hrest := parseRest_attrs rs r
          (r.data ++ dotTailChars (rs.map String.data)).length (le_refl _)
          (fun t ht => hall t (by simp at ht ⊢; tauto))
        simp only [List.cons_append] at hcontains ⊢
        simp only [hcontains, if_true, htake, hdrop, hrest]
        simp

/-- Witness for claim C8 at the concrete chain `"a.b.c"`. -/
theorem c8_dotted_chain_witness :
    MethodCallParser.parse (dotted ["a", "b", "c"])
      = .ok [ChainOp.key "a", ChainOp.attr "b", ChainOp.attr "c"] :=
  c8_dotted_chain_parses_to_key_attrs "a" ["b", "c"] (by decide)
